import Mathlib

/-!
Verification development for a small trending-video reporting pipeline
(`src/app.py`).  The Python code is shallowly embedded: datetimes become a
seven-field record of naturals, the two `strptime` formats become an explicit
character-list parser modelled on CPython's `_strptime` regular expressions,
`datetime - timedelta(days=n)` becomes `n` applications of a previous-day step
on the proleptic Gregorian calendar, and the Streamlit/network effects become
explicit inputs (`Except` values for the two API responses) and outputs (a list
of surfaced messages).
-/

set_option autoImplicit false

namespace ThemeTracker

/-- Model of a Python `datetime.datetime` value: year, month, day, hour,
minute, second, microsecond. -/
structure PyDateTime where
  year : Nat
  month : Nat
  day : Nat
  hour : Nat
  minute : Nat
  second : Nat
  microsecond : Nat
deriving DecidableEq, Repr

/-- Python datetime comparison `a <= b`: lexicographic on the seven fields. -/
def dtLe (a b : PyDateTime) : Bool :=
  if a.year < b.year then true else if b.year < a.year then false
  else if a.month < b.month then true else if b.month < a.month then false
  else if a.day < b.day then true else if b.day < a.day then false
  else if a.hour < b.hour then true else if b.hour < a.hour then false
  else if a.minute < b.minute then true else if b.minute < a.minute then false
  else if a.second < b.second then true else if b.second < a.second then false
  else decide (a.microsecond ≤ b.microsecond)

/-- `isLeap y`: the Gregorian leap-year rule used by Python's `datetime`. -/
def isLeap (y : Nat) : Bool :=
  (y % 4 == 0 && y % 100 != 0) || y % 400 == 0

/-- Days in month `m` of year `y` (Python `calendar`/`datetime` semantics). -/
def daysInMonth (y m : Nat) : Nat :=
  if m = 2 then (if isLeap y then 29 else 28)
  else if m = 4 ∨ m = 6 ∨ m = 9 ∨ m = 11 then 30
  else 31

/-- Calendar-validity of the date fields plus the range checks Python's
`datetime` constructor performs on the time fields. -/
def DTValid (d : PyDateTime) : Prop :=
  1 ≤ d.year ∧ 1 ≤ d.month ∧ d.month ≤ 12 ∧ 1 ≤ d.day ∧
    d.day ≤ daysInMonth d.year d.month ∧
    d.hour ≤ 23 ∧ d.minute ≤ 59 ∧ d.second ≤ 59 ∧ d.microsecond ≤ 999999

instance (d : PyDateTime) : Decidable (DTValid d) := by
  unfold DTValid; infer_instance

/-- One day earlier, time-of-day unchanged: the step underlying
`datetime - timedelta(days=n)`. -/
def prevDay (d : PyDateTime) : PyDateTime :=
  if 2 ≤ d.day then { d with day := d.day - 1 }
  else if 2 ≤ d.month then
    { d with month := d.month - 1, day := daysInMonth d.year (d.month - 1) }
  else { d with year := d.year - 1, month := 12, day := 31 }

/-- `dtSubDays d n` models Python's `d - datetime.timedelta(days=n)`. -/
def dtSubDays : PyDateTime → Nat → PyDateTime
  | d, 0 => d
  | d, n + 1 => dtSubDays (prevDay d) n

/-! ### Digits, padding, and the two `strptime` formats -/

/-- The decimal digit character for `n < 10`. -/
def digitChar (n : Nat) : Char := Char.ofNat (48 + n)

/-- Numeric value of a digit character. -/
def digitVal (c : Char) : Nat := c.toNat - 48

/-- Zero-padded two-digit rendering (`"%02d"` for values below 100). -/
def pad2 (n : Nat) : List Char := [digitChar (n / 10 % 10), digitChar (n % 10)]

/-- Zero-padded four-digit rendering (`"%04d"` for values below 10000). -/
def pad4 (n : Nat) : List Char :=
  [digitChar (n / 1000 % 10), digitChar (n / 100 % 10),
   digitChar (n / 10 % 10), digitChar (n % 10)]

/-- Zero-padded six-digit rendering (`"%06d"` for values below 1000000). -/
def pad6 (n : Nat) : List Char :=
  [digitChar (n / 100000 % 10), digitChar (n / 10000 % 10),
   digitChar (n / 1000 % 10), digitChar (n / 100 % 10),
   digitChar (n / 10 % 10), digitChar (n % 10)]

/-- `dt.isoformat("T") + "Z"` from `get_published_after`: Python's
`isoformat` omits the fractional part exactly when `microsecond == 0`. -/
def isoformatZ (d : PyDateTime) : List Char :=
  pad4 d.year ++ '-' :: (pad2 d.month ++ '-' :: (pad2 d.day ++
    'T' :: (pad2 d.hour ++ ':' :: (pad2 d.minute ++ ':' :: (pad2 d.second ++
      ((if d.microsecond = 0 then [] else '.' :: pad6 d.microsecond) ++ ['Z']))))))

/-- Match exactly four digit characters (`strptime`'s `%Y` pattern). -/
def parse4 : List Char → Option (Nat × List Char)
  | a :: b :: c :: d :: rest =>
    if a.isDigit && b.isDigit && c.isDigit && d.isDigit then
      some (((digitVal a * 10 + digitVal b) * 10 + digitVal c) * 10 + digitVal d, rest)
    else none
  | _ => none

/-- Match a one- or two-digit field, two digits preferred, each width guarded
by its own range predicate.  This mirrors the CPython `_strptime` regular
expressions for `%m`, `%d`, `%H`, `%M`, `%S`, whose two-digit alternatives all
precede the one-digit alternatives. -/
def parseNum2or1 (ok2 ok1 : Nat → Bool) : List Char → Option (Nat × List Char)
  | a :: b :: rest =>
    if a.isDigit && b.isDigit && ok2 (digitVal a * 10 + digitVal b) then
      some (digitVal a * 10 + digitVal b, rest)
    else if a.isDigit && ok1 (digitVal a) then some (digitVal a, b :: rest)
    else none
  | [a] => if a.isDigit && ok1 (digitVal a) then some (digitVal a, []) else none
  | [] => none

/-- Match one literal character. -/
def parseLit (c : Char) : List Char → Option (List Char)
  | x :: rest => if x = c then some rest else none
  | [] => none

/-- Take up to `n` leading digit characters. -/
def takeDigits : Nat → List Char → List Char × List Char
  | 0, cs => ([], cs)
  | n + 1, [] => let _ := n; ([], [])
  | n + 1, c :: cs =>
    if c.isDigit then
      let p := takeDigits n cs
      (c :: p.1, p.2)
    else ([], c :: cs)

/-- Decimal value of a digit-character list. -/
def numVal (ds : List Char) : Nat := ds.foldl (fun a c => a * 10 + digitVal c) 0

/-- `strptime`'s `%f`: one to six digits, right-padded with zeros to a
microsecond count. -/
def parseFrac (cs : List Char) : Option (Nat × List Char) :=
  let p := takeDigits 6 cs
  if p.1 = [] then none
  else some (numVal p.1 * 10 ^ (6 - p.1.length), p.2)

/-- The range/constructor checks `datetime.datetime` performs after the regex
match: month 1–12, day within the month, hour/minute/second/microsecond in
range, year within `MINYEAR..MAXYEAR`. -/
def mkValid (y mo d h mi s f : Nat) : Option PyDateTime :=
  if 1 ≤ y ∧ y ≤ 9999 ∧ 1 ≤ mo ∧ mo ≤ 12 ∧ 1 ≤ d ∧ d ≤ daysInMonth y mo ∧
      h ≤ 23 ∧ mi ≤ 59 ∧ s ≤ 59 ∧ f ≤ 999999 then
    some ⟨y, mo, d, h, mi, s, f⟩
  else none

/-- Two-digit/one-digit range predicates of `%m` (`1[0-2]|0[1-9]|[1-9]`). -/
def okMonth2 (n : Nat) : Bool := decide (1 ≤ n ∧ n ≤ 12)
def okMonth1 (n : Nat) : Bool := decide (1 ≤ n ∧ n ≤ 9)
/-- Range predicates of `%d` (`3[01]|[12]\d|0[1-9]|[1-9]`). -/
def okDay2 (n : Nat) : Bool := decide (1 ≤ n ∧ n ≤ 31)
def okDay1 (n : Nat) : Bool := decide (1 ≤ n ∧ n ≤ 9)
/-- Range predicates of `%H` (`2[0-3]|[0-1]\d|\d`). -/
def okHour2 (n : Nat) : Bool := decide (n ≤ 23)
def okHour1 (n : Nat) : Bool := decide (n ≤ 9)
/-- Range predicates of `%M` (`[0-5]\d|\d`). -/
def okMin2 (n : Nat) : Bool := decide (n ≤ 59)
def okMin1 (n : Nat) : Bool := decide (n ≤ 9)
/-- Range predicates of `%S` (`6[0-1]|[0-5]\d|\d`). -/
def okSec2 (n : Nat) : Bool := decide (n ≤ 61)
def okSec1 (n : Nat) : Bool := decide (n ≤ 9)

/-- `strptime(s, "%Y-%m-%dT%H:%M:%S.%fZ")` followed by the datetime
constructor checks. -/
def parseFmt1 (cs : List Char) : Option PyDateTime :=
  match parse4 cs with
  | none => none
  | some (y, cs) =>
    match parseLit '-' cs with
    | none => none
    | some cs =>
      match parseNum2or1 okMonth2 okMonth1 cs with
      | none => none
      | some (mo, cs) =>
        match parseLit '-' cs with
        | none => none
        | some cs =>
          match parseNum2or1 okDay2 okDay1 cs with
          | none => none
          | some (d, cs) =>
            match parseLit 'T' cs with
            | none => none
            | some cs =>
              match parseNum2or1 okHour2 okHour1 cs with
              | none => none
              | some (h, cs) =>
                match parseLit ':' cs with
                | none => none
                | some cs =>
                  match parseNum2or1 okMin2 okMin1 cs with
                  | none => none
                  | some (mi, cs) =>
                    match parseLit ':' cs with
                    | none => none
                    | some cs =>
                      match parseNum2or1 okSec2 okSec1 cs with
                      | none => none
                      | some (s, cs) =>
                        match parseLit '.' cs with
                        | none => none
                        | some cs =>
                          match parseFrac cs with
                          | none => none
                          | some (f, cs) =>
                            match parseLit 'Z' cs with
                            | none => none
                            | some cs =>
                              if cs = [] then mkValid y mo d h mi s f else none

/-- `strptime(s, "%Y-%m-%dT%H:%M:%SZ")` followed by the datetime constructor
checks. -/
def parseFmt2 (cs : List Char) : Option PyDateTime :=
  match parse4 cs with
  | none => none
  | some (y, cs) =>
    match parseLit '-' cs with
    | none => none
    | some cs =>
      match parseNum2or1 okMonth2 okMonth1 cs with
      | none => none
      | some (mo, cs) =>
        match parseLit '-' cs with
        | none => none
        | some cs =>
          match parseNum2or1 okDay2 okDay1 cs with
          | none => none
          | some (d, cs) =>
            match parseLit 'T' cs with
            | none => none
            | some cs =>
              match parseNum2or1 okHour2 okHour1 cs with
              | none => none
              | some (h, cs) =>
                match parseLit ':' cs with
                | none => none
                | some cs =>
                  match parseNum2or1 okMin2 okMin1 cs with
                  | none => none
                  | some (mi, cs) =>
                    match parseLit ':' cs with
                    | none => none
                    | some cs =>
                      match parseNum2or1 okSec2 okSec1 cs with
                      | none => none
                      | some (s, cs) =>
                        match parseLit 'Z' cs with
                        | none => none
                        | some cs =>
                          if cs = [] then mkValid y mo d h mi s 0 else none

/-- `parse_iso_date` (`app.py` lines 12–19): try the fractional format, then
the plain format; `none` models the trailing `raise ValueError`. -/
def parse_iso_date (s : String) : Option PyDateTime :=
  match parseFmt1 s.data with
  | some d => some d
  | none => parseFmt2 s.data

/-- The `if/elif` chain of `get_published_after` (`app.py` lines 27–34):
days subtracted for each time-span value, defaulting to 7. -/
def spanDelta (time_span : String) : Nat :=
  if time_span = "1 Week" then 7
  else if time_span = "1 Month" then 30
  else if time_span = "6 Months" then 180
  else 7

/-- `get_published_after` (`app.py` lines 21–36) with `datetime.utcnow()`
lifted to the explicit parameter `now`. -/
def get_published_after (now : PyDateTime) (time_span : String) : String :=
  String.mk (isoformatZ (dtSubDays now (spanDelta time_span)))

/-! ### The report pipeline (`get_trending_topics`, `app.py` lines 38–131)

The two network calls are inputs: `trendingResp` is the parsed
`videos().list` response (error string on exception), `categoriesResp` the
`videoCategories().list` response.  `st.error`/`st.info` calls become
messages in the result. -/

/-- The `snippet` fields of one trending-video item; `dict.get` absences are
`none`. -/
structure Snippet where
  publishedAt : Option String
  categoryId : Option String
  title : Option String
deriving DecidableEq, Repr

/-- One item of the `videoCategories` response: `item["id"]`,
`item["snippet"]["title"]`. -/
structure CategoryItem where
  id : String
  title : String
deriving DecidableEq, Repr

/-- A message surfaced to the user via `st.error` or `st.info`. -/
inductive Msg where
  | error (s : String)
  | info (s : String)
deriving DecidableEq, Repr

/-- One entry of the returned topic list:
`{"topic": ..., "comment": ..., "videos": ...}`. -/
structure Topic where
  topic : String
  comment : String
  videos : List String
deriving DecidableEq, Repr

/-- Result of one invocation: the returned list plus the surfaced messages. -/
structure TTResult where
  topics : List Topic
  messages : List Msg
deriving DecidableEq, Repr

/-- `"BR" if region == "Brazil" else "US"` (`app.py` line 47). -/
def region_code (region : String) : String :=
  if region = "Brazil" then "BR" else "US"

/-- Python truthiness of an optional string (`if category_id and title`):
`None` and the empty string are falsy. -/
def truthy : Option String → Bool
  | none => false
  | some s => !(s = "")

/-- The recency test applied to one item (`app.py` lines 74–81): parse the
publish timestamp, drop the item on any parse failure (including a missing
`publishedAt`, whose `strptime(None, ...)` raises), keep it when the parsed
time is `>=` the threshold. -/
def keepItem (threshold : PyDateTime) (it : Snippet) : Bool :=
  match it.publishedAt with
  | none => false
  | some s =>
    match parse_iso_date s with
    | none => false
    | some d => dtLe threshold d

/-- The recency-filter loop: `filtered_items`. -/
def filterRecent (threshold : PyDateTime) (items : List Snippet) : List Snippet :=
  items.filter (keepItem threshold)

/-- First lookup in an association list (Python `dict` lookup order). -/
def alookup {α : Type} (k : String) : List (String × α) → Option α
  | [] => none
  | (k', v) :: rest => if k' = k then some v else alookup k rest

/-- `category_counter[category_id] += 1` on a `Counter` kept in insertion
order: increment in place, or append a fresh entry with count 1. -/
def bump (k : String) : List (String × Nat) → List (String × Nat)
  | [] => [(k, 1)]
  | (k', n) :: rest => if k' = k then (k', n + 1) :: rest else (k', n) :: bump k rest

/-- `category_videos[category_id].append(title)` on a `defaultdict(list)` kept
in insertion order. -/
def appendVid (k t : String) : List (String × List String) → List (String × List String)
  | [] => [(k, [t])]
  | (k', vs) :: rest =>
    if k' = k then (k', vs ++ [t]) :: rest else (k', vs) :: appendVid k t rest

/-- One iteration of the aggregation loop (`app.py` lines 91–97): update the
counter and the per-category title lists together, skipping items whose
`categoryId` or `title` is missing or empty. -/
def aggStep (acc : List (String × Nat) × List (String × List String))
    (it : Snippet) : List (String × Nat) × List (String × List String) :=
  if truthy it.categoryId && truthy it.title then
    (bump (it.categoryId.getD "") acc.1,
     appendVid (it.categoryId.getD "") (it.title.getD "") acc.2)
  else acc

/-- The aggregation loop over the filtered items. -/
def aggregate (items : List Snippet) :
    List (String × Nat) × List (String × List String) :=
  items.foldl aggStep ([], [])

/-- Stable descending insertion: place `x` before the first entry whose count
is `≤` its own, so that under `foldr` earlier-inserted entries stay first
among equal counts. -/
def insertDesc (x : String × Nat) : List (String × Nat) → List (String × Nat)
  | [] => [x]
  | y :: ys => if y.2 ≤ x.2 then x :: y :: ys else y :: insertDesc x ys

/-- Stable sort by count descending, ties in original (first-insertion)
order: the ordering contract of `Counter.most_common`. -/
def sortDesc (l : List (String × Nat)) : List (String × Nat) :=
  l.foldr insertDesc []

/-- `category_counter.most_common(10)` (`app.py` line 104). -/
def mostCommon10 (l : List (String × Nat)) : List (String × Nat) :=
  (sortDesc l).take 10

/-- `dict` insertion with overwrite, insertion order kept. -/
def dictInsert {α : Type} (k : String) (v : α) :
    List (String × α) → List (String × α)
  | [] => [(k, v)]
  | (k', v') :: rest =>
    if k' = k then (k', v) :: rest else (k', v') :: dictInsert k v rest

/-- `category_mapping` built from the categories response
(`app.py` lines 117–121). -/
def buildMapping (items : List CategoryItem) : List (String × String) :=
  items.foldl (fun acc it => dictInsert it.id it.title acc) []

/-- The comment f-string of `app.py` line 127. -/
def mkComment (count : Nat) (name : String) : String :=
  "There are " ++ Nat.repr count ++
    " popular videos trending in the '" ++ name ++
    "' category during this period."

/-- The report-assembly loop (`app.py` lines 124–129): resolve each selected
category id to a name (default `"Unknown"`), emit the comment and the title
list (default `[]`). -/
def build_topics (top_categories : List (String × Nat))
    (category_mapping : List (String × String))
    (category_videos : List (String × List String)) : List Topic :=
  top_categories.map (fun p =>
    let cat_name := (alookup p.1 category_mapping).getD "Unknown"
    { topic := cat_name
      comment := mkComment p.2 cat_name
      videos := (alookup p.1 category_videos).getD [] })

/-- `get_trending_topics` (`app.py` lines 38–131), with `utcnow` and the two
API responses as explicit inputs.  `region` only selects the region code sent
with the (input) trending request. -/
def get_trending_topics (time_span region : String) (now : PyDateTime)
    (trendingResp : Except String (List Snippet))
    (categoriesResp : Except String (List CategoryItem)) : TTResult :=
  let published_after := get_published_after now time_span
  let _rc := region_code region
  match trendingResp with
  | .error e => ⟨[], [.error ("Error fetching trending videos: " ++ e)]⟩
  | .ok items =>
    if items = [] then
      ⟨[], [.info "No trending videos found for the selected region."]⟩
    else
      match parse_iso_date published_after with
      | none =>
        ⟨[], [.error ("Error parsing threshold date: Time data '" ++
          published_after ++ "' does not match expected formats.")]⟩
      | some threshold_date =>
        let filtered_items := filterRecent threshold_date items
        if filtered_items = [] then
          ⟨[], [.info "No trending videos found for the selected time span and region."]⟩
        else
          let agg := aggregate filtered_items
          if agg.1 = [] then
            ⟨[], [.info "No category information found for the videos."]⟩
          else
            let top_categories := mostCommon10 agg.1
            match categoriesResp with
            | .error e => ⟨[], [.error ("Error fetching category details: " ++ e)]⟩
            | .ok catItems =>
              ⟨build_topics top_categories (buildMapping catItems) agg.2, []⟩

/-! ### Auxiliary definitions used by the statements and proofs -/

/-- Total count held by the counter. -/
def sumCounts (l : List (String × Nat)) : Nat := (l.map Prod.snd).sum

/-- The keys of an association list are pairwise distinct (true of any
Python `dict`/`Counter`). -/
def KeysNodup {α : Type} (l : List (String × α)) : Prop :=
  (l.map Prod.fst).Nodup

/-- Relation between the counter and the title-list map that the aggregation
loop maintains: a category's count is exactly the length of its title list. -/
def AggInv (cnt : List (String × Nat)) (vids : List (String × List String)) : Prop :=
  KeysNodup cnt ∧ ∀ cid, Option.map List.length (alookup cid vids) = alookup cid cnt

/-- Days strictly before month `m` in year `y` (month 13 of `m` ≥ 13 never
arises on valid dates). -/
def daysBeforeMonth (y : Nat) : Nat → Nat
  | 0 => 0
  | 1 => 0
  | m + 2 => daysBeforeMonth y (m + 1) + daysInMonth y (m + 1)

/-- A measure that every `prevDay` step decreases by one or two: year scaled
past the maximal year length, plus the day index within the year. -/
def dateMeasure (d : PyDateTime) : Nat :=
  (d.year - 1) * 366 + daysBeforeMonth d.year d.month + d.day

/-! ### Concrete inputs used by witnesses, the scenario claim, and the
counterexample -/

/-- A concrete "current time": 2026-10-12 00:00:00 UTC. -/
def now0 : PyDateTime := ⟨2026, 10, 12, 0, 0, 0, 0⟩

/-- The 7-day cutoff derived from `now0`: 2026-10-05 00:00:00 UTC. -/
def thr0 : PyDateTime := ⟨2026, 10, 5, 0, 0, 0, 0⟩

/-- Scenario record "A": category `"10"`, published at `now0`. -/
def itA : Snippet := ⟨some "2026-10-12T00:00:00Z", some "10", some "A"⟩

/-- Scenario record "B": category `"10"`, published at `now0`. -/
def itB : Snippet := ⟨some "2026-10-12T00:00:00Z", some "10", some "B"⟩

/-- Scenario record "C": category `"20"`, published 40 days before `now0`. -/
def itC : Snippet := ⟨some "2026-09-02T00:00:00Z", some "20", some "C"⟩

/-- A record with a fresh timestamp but no `categoryId`: it survives the
recency filter yet is skipped by the aggregation loop. -/
def itBad : Snippet := ⟨some "2026-10-12T00:00:00Z", none, some "X"⟩

/-! ### Helper lemmas -/

theorem keepItem_iff (threshold : PyDateTime) (it : Snippet) :
    keepItem threshold it = true ↔
      ∃ s d, it.publishedAt = some s ∧ parse_iso_date s = some d ∧
        dtLe threshold d = true := by
  unfold keepItem
  cases hpa : it.publishedAt with
  | none => simp
  | some s =>
    cases hp : parse_iso_date s with
    | none => simp [hp]
    | some d => simp [hp]

theorem sumCounts_bump (k : String) (l : List (String × Nat)) :
    sumCounts (bump k l) = sumCounts l + 1 := by
  induction l with
  | nil => rfl
  | cons p rest ih =>
    rcases p with ⟨k', n⟩
    by_cases h : k' = k
    · simp [bump, h, sumCounts]; omega
    · simp only [bump, if_neg h]
      simp [sumCounts] at ih ⊢
      omega

theorem foldl_aggStep_sum (l : List Snippet) :
    ∀ acc : List (String × Nat) × List (String × List String),
      sumCounts (l.foldl aggStep acc).1 =
        sumCounts acc.1 +
          (l.filter (fun it => truthy it.categoryId && truthy it.title)).length := by
  induction l with
  | nil => intro acc; simp
  | cons it rest ih =>
    intro acc
    by_cases h : (truthy it.categoryId && truthy it.title) = true
    · simp only [List.foldl_cons, List.filter_cons, h, if_pos]
      rw [ih]
      simp [aggStep, h, sumCounts_bump]
      omega
    · simp only [List.foldl_cons, List.filter_cons, h]
      rw [ih]
      simp [aggStep, h]

theorem digitChar_isDigit {n : Nat} (h : n < 10) : (digitChar n).isDigit = true := by
  interval_cases n <;> decide

theorem digitVal_digitChar {n : Nat} (h : n < 10) : digitVal (digitChar n) = n := by
  interval_cases n <;> decide

theorem parse4_pad4 (n : Nat) (h : n ≤ 9999) (r : List Char) :
    parse4 (pad4 n ++ r) = some (n, r) := by
  have b1 : n / 1000 % 10 < 10 := Nat.mod_lt _ (by norm_num)
  have b2 : n / 100 % 10 < 10 := Nat.mod_lt _ (by norm_num)
  have b3 : n / 10 % 10 < 10 := Nat.mod_lt _ (by norm_num)
  have b4 : n % 10 < 10 := Nat.mod_lt _ (by norm_num)
  simp [pad4, parse4, digitChar_isDigit b1, digitChar_isDigit b2,
    digitChar_isDigit b3, digitChar_isDigit b4, digitVal_digitChar b1,
    digitVal_digitChar b2, digitVal_digitChar b3, digitVal_digitChar b4]
  omega

theorem parseNum2or1_pad2 (ok2 ok1 : Nat → Bool) (n : Nat) (h : n ≤ 99)
    (hok : ok2 n = true) (r : List Char) :
    parseNum2or1 ok2 ok1 (pad2 n ++ r) = some (n, r) := by
  have b1 : n / 10 % 10 < 10 := Nat.mod_lt _ (by norm_num)
  have b2 : n % 10 < 10 := Nat.mod_lt _ (by norm_num)
  have hval : n / 10 % 10 * 10 + n % 10 = n := by omega
  simp [pad2, parseNum2or1, digitChar_isDigit b1, digitChar_isDigit b2,
    digitVal_digitChar b1, digitVal_digitChar b2, hval, hok]

theorem parseLit_cons (c : Char) (r : List Char) : parseLit c (c :: r) = some r := by
  simp [parseLit]

theorem parseLit_ne (c x : Char) (h : ¬ (x = c)) (r : List Char) :
    parseLit c (x :: r) = none := by
  simp [parseLit, h]

theorem parseFrac_pad6 (n : Nat) (h : n ≤ 999999) :
    parseFrac (pad6 n ++ ['Z']) = some (n, ['Z']) := by
  have b1 : n / 100000 % 10 < 10 := Nat.mod_lt _ (by norm_num)
  have b2 : n / 10000 % 10 < 10 := Nat.mod_lt _ (by norm_num)
  have b3 : n / 1000 % 10 < 10 := Nat.mod_lt _ (by norm_num)
  have b4 : n / 100 % 10 < 10 := Nat.mod_lt _ (by norm_num)
  have b5 : n / 10 % 10 < 10 := Nat.mod_lt _ (by norm_num)
  have b6 : n % 10 < 10 := Nat.mod_lt _ (by norm_num)
  simp [parseFrac, pad6, takeDigits, numVal, digitChar_isDigit b1,
    digitChar_isDigit b2, digitChar_isDigit b3, digitChar_isDigit b4,
    digitChar_isDigit b5, digitChar_isDigit b6, digitVal_digitChar b1,
    digitVal_digitChar b2, digitVal_digitChar b3, digitVal_digitChar b4,
    digitVal_digitChar b5, digitVal_digitChar b6]
  omega

theorem daysInMonth_pos (y m : Nat) : 1 ≤ daysInMonth y m := by
  unfold daysInMonth; split_ifs <;> norm_num

theorem daysInMonth_le (y m : Nat) : daysInMonth y m ≤ 31 := by
  unfold daysInMonth; split_ifs <;> norm_num

theorem mkValid_self (dt : PyDateTime) (hv : DTValid dt) (hy : dt.year ≤ 9999) :
    mkValid dt.year dt.month dt.day dt.hour dt.minute dt.second dt.microsecond =
      some dt := by
  obtain ⟨h1, h2, h3, h4, h5, h6, h7, h8, h9⟩ := hv
  rw [mkValid, if_pos ⟨h1, hy, h2, h3, h4, h5, h6, h7, h8, h9⟩]

theorem parseFmt1_isoformatZ (dt : PyDateTime) (hv : DTValid dt)
    (hy : dt.year ≤ 9999) (hms : ¬ (dt.microsecond = 0)) :
    parseFmt1 (isoformatZ dt) = some dt := by
  obtain ⟨h1, h2, h3, h4, h5, h6, h7, h8, h9⟩ := hv
  have hdm := daysInMonth_le dt.year dt.month
  have hmo : okMonth2 dt.month = true := by simp [okMonth2]; omega
  have hd : okDay2 dt.day = true := by simp [okDay2]; omega
  have hh : okHour2 dt.hour = true := by simp [okHour2]; omega
  have hmi : okMin2 dt.minute = true := by simp [okMin2]; omega
  have hs : okSec2 dt.second = true := by simp [okSec2]; omega
  have hmk : mkValid dt.year dt.month dt.day dt.hour dt.minute dt.second
      dt.microsecond = some dt :=
    mkValid_self dt ⟨h1, h2, h3, h4, h5, h6, h7, h8, h9⟩ hy
  rw [isoformatZ, if_neg hms]
  simp only [parseFmt1, parse4_pad4 dt.year hy, parseLit_cons,
    parseNum2or1_pad2 okMonth2 okMonth1 dt.month (by omega) hmo,
    parseNum2or1_pad2 okDay2 okDay1 dt.day (by omega) hd,
    parseNum2or1_pad2 okHour2 okHour1 dt.hour (by omega) hh,
    parseNum2or1_pad2 okMin2 okMin1 dt.minute (by omega) hmi,
    parseNum2or1_pad2 okSec2 okSec1 dt.second (by omega) hs,
    parseFrac_pad6 dt.microsecond h9, List.cons_append, List.nil_append,
    eq_self_iff_true, if_true, hmk]

theorem parseFmt1_isoformatZ_none (dt : PyDateTime) (hv : DTValid dt)
    (hy : dt.year ≤ 9999) (hms : dt.microsecond = 0) :
    parseFmt1 (isoformatZ dt) = none := by
  obtain ⟨h1, h2, h3, h4, h5, h6, h7, h8, h9⟩ := hv
  have hdm := daysInMonth_le dt.year dt.month
  have hmo : okMonth2 dt.month = true := by simp [okMonth2]; omega
  have hd : okDay2 dt.day = true := by simp [okDay2]; omega
  have hh : okHour2 dt.hour = true := by simp [okHour2]; omega
  have hmi : okMin2 dt.minute = true := by simp [okMin2]; omega
  have hs : okSec2 dt.second = true := by simp [okSec2]; omega
  rw [isoformatZ, if_pos hms]
  simp only [parseFmt1, parse4_pad4 dt.year hy, parseLit_cons,
    parseNum2or1_pad2 okMonth2 okMonth1 dt.month (by omega) hmo,
    parseNum2or1_pad2 okDay2 okDay1 dt.day (by omega) hd,
    parseNum2or1_pad2 okHour2 okHour1 dt.hour (by omega) hh,
    parseNum2or1_pad2 okMin2 okMin1 dt.minute (by omega) hmi,
    parseNum2or1_pad2 okSec2 okSec1 dt.second (by omega) hs,
    List.cons_append, List.nil_append,
    parseLit_ne '.' 'Z' (by decide)]

theorem parseFmt2_isoformatZ (dt : PyDateTime) (hv : DTValid dt)
    (hy : dt.year ≤ 9999) (hms : dt.microsecond = 0) :
    parseFmt2 (isoformatZ dt) = some dt := by
  obtain ⟨h1, h2, h3, h4, h5, h6, h7, h8, h9⟩ := hv
  have hdm := daysInMonth_le dt.year dt.month
  have hmo : okMonth2 dt.month = true := by simp [okMonth2]; omega
  have hd : okDay2 dt.day = true := by simp [okDay2]; omega
  have hh : okHour2 dt.hour = true := by simp [okHour2]; omega
  have hmi : okMin2 dt.minute = true := by simp [okMin2]; omega
  have hs : okSec2 dt.second = true := by simp [okSec2]; omega
  have hmk : mkValid dt.year dt.month dt.day dt.hour dt.minute dt.second 0 =
      some dt :=
    hms ▸ mkValid_self dt ⟨h1, h2, h3, h4, h5, h6, h7, h8, h9⟩ hy
  rw [isoformatZ, if_pos hms]
  simp only [parseFmt2, parse4_pad4 dt.year hy, parseLit_cons,
    parseNum2or1_pad2 okMonth2 okMonth1 dt.month (by omega) hmo,
    parseNum2or1_pad2 okDay2 okDay1 dt.day (by omega) hd,
    parseNum2or1_pad2 okHour2 okHour1 dt.hour (by omega) hh,
    parseNum2or1_pad2 okMin2 okMin1 dt.minute (by omega) hmi,
    parseNum2or1_pad2 okSec2 okSec1 dt.second (by omega) hs,
    List.cons_append, List.nil_append, eq_self_iff_true, if_true, hmk]

theorem parse_isoformatZ (dt : PyDateTime) (hv : DTValid dt)
    (hy : dt.year ≤ 9999) :
    parse_iso_date (String.mk (isoformatZ dt)) = some dt := by
  have hdata : (String.mk (isoformatZ dt)).data = isoformatZ dt := rfl
  by_cases hms : dt.microsecond = 0
  · rw [parse_iso_date, hdata, parseFmt1_isoformatZ_none dt hv hy hms]
    exact parseFmt2_isoformatZ dt hv hy hms
  · rw [parse_iso_date, hdata, parseFmt1_isoformatZ dt hv hy hms]

theorem daysBeforeMonth_succ (y m : Nat) (h : 1 ≤ m) :
    daysBeforeMonth y (m + 1) = daysBeforeMonth y m + daysInMonth y m := by
  obtain ⟨k, rfl⟩ : ∃ k, m = k + 1 := ⟨m - 1, by omega⟩
  rfl

theorem daysBeforeMonth_12 (y : Nat) :
    334 ≤ daysBeforeMonth y 12 ∧ daysBeforeMonth y 12 ≤ 335 := by
  by_cases h : isLeap y = true
  · norm_num [daysBeforeMonth, daysInMonth, h]
  · norm_num [daysBeforeMonth, daysInMonth, h]

theorem prevDay_step (d : PyDateTime) (hv : DTValid d) (hm : 2 ≤ dateMeasure d) :
    DTValid (prevDay d) ∧ (prevDay d).year ≤ d.year ∧
      (prevDay d).hour = d.hour ∧ (prevDay d).minute = d.minute ∧
      (prevDay d).second = d.second ∧ (prevDay d).microsecond = d.microsecond ∧
      dateMeasure (prevDay d) < dateMeasure d ∧
      dateMeasure d ≤ dateMeasure (prevDay d) + 2 := by
  obtain ⟨h1, h2, h3, h4, h5, h6, h7, h8, h9⟩ := hv
  have hold : dateMeasure d =
      (d.year - 1) * 366 + daysBeforeMonth d.year d.month + d.day := rfl
  unfold prevDay
  by_cases hd : 2 ≤ d.day
  · rw [if_pos hd]
    have hnew : dateMeasure { d with day := d.day - 1 } =
        (d.year - 1) * 366 + daysBeforeMonth d.year d.month + (d.day - 1) := rfl
    refine ⟨⟨h1, h2, h3, by show 1 ≤ d.day - 1; omega,
        by show d.day - 1 ≤ daysInMonth d.year d.month; omega,
        h6, h7, h8, h9⟩,
      le_refl _, rfl, rfl, rfl, rfl, ?_, ?_⟩
    · rw [hnew, hold]; omega
    · rw [hnew, hold]; omega
  · rw [if_neg hd]
    have hday : d.day = 1 := by omega
    by_cases hmo : 2 ≤ d.month
    · rw [if_pos hmo]
      have hsucc := daysBeforeMonth_succ d.year (d.month - 1) (by omega)
      have hm1 : d.month - 1 + 1 = d.month := by omega
      rw [hm1] at hsucc
      have hnew : dateMeasure
          { d with month := d.month - 1, day := daysInMonth d.year (d.month - 1) } =
          (d.year - 1) * 366 + daysBeforeMonth d.year (d.month - 1) +
            daysInMonth d.year (d.month - 1) := rfl
      refine ⟨⟨h1, by show 1 ≤ d.month - 1; omega, by show d.month - 1 ≤ 12; omega,
          daysInMonth_pos _ _, le_refl _, h6, h7, h8, h9⟩,
        le_refl _, rfl, rfl, rfl, rfl, ?_, ?_⟩
      · rw [hnew, hold]; omega
      · rw [hnew, hold]; omega
    · rw [if_neg hmo]
      have hmth : d.month = 1 := by omega
      have h0 : daysBeforeMonth d.year d.month = 0 := by rw [hmth]; rfl
      have hy2 : 2 ≤ d.year := by
        rw [hold, h0, hday] at hm
        omega
      have h31 : daysInMonth (d.year - 1) 12 = 31 := by norm_num [daysInMonth]
      have h12 := daysBeforeMonth_12 (d.year - 1)
      have hnew : dateMeasure { d with year := d.year - 1, month := 12, day := 31 } =
          (d.year - 1 - 1) * 366 + daysBeforeMonth (d.year - 1) 12 + 31 := rfl
      refine ⟨⟨by show 1 ≤ d.year - 1; omega, by show (1 : Nat) ≤ 12; norm_num,
          by show (12 : Nat) ≤ 12; norm_num, by show (1 : Nat) ≤ 31; norm_num,
          by show (31 : Nat) ≤ daysInMonth (d.year - 1) 12; omega,
          h6, h7, h8, h9⟩,
        by show d.year - 1 ≤ d.year; omega, rfl, rfl, rfl, rfl, ?_, ?_⟩
      · rw [hnew, hold, h0, hday]; omega
      · rw [hnew, hold, h0, hday]; omega

theorem dtSubDays_valid (n : Nat) :
    ∀ d : PyDateTime, DTValid d → 2 * n ≤ dateMeasure d →
      DTValid (dtSubDays d n) ∧ (dtSubDays d n).year ≤ d.year ∧
        (dtSubDays d n).hour = d.hour ∧ (dtSubDays d n).minute = d.minute ∧
        (dtSubDays d n).second = d.second ∧
        (dtSubDays d n).microsecond = d.microsecond ∧
        dateMeasure d ≤ dateMeasure (dtSubDays d n) + 2 * n := by
  induction n with
  | zero =>
    intro d hv _
    exact ⟨hv, le_refl _, rfl, rfl, rfl, rfl, by simp [dtSubDays]⟩
  | succ k ih =>
    intro d hv hm
    obtain ⟨hv', hy', hh', hmi', hs', hms', hlt, hle⟩ :=
      prevDay_step d hv (by omega)
    obtain ⟨v2, y2, hh2, mi2, s2, ms2, me2⟩ := ih (prevDay d) hv' (by omega)
    refine ⟨v2, le_trans y2 hy', hh2.trans hh', mi2.trans hmi', s2.trans hs',
      ms2.trans hms', ?_⟩
    rw [show dtSubDays d (k + 1) = dtSubDays (prevDay d) k from rfl]
    omega

theorem spanDelta_le (ts : String) : spanDelta ts ≤ 180 := by
  unfold spanDelta; split_ifs <;> norm_num

theorem mem_insertDesc (x z : String × Nat) (l : List (String × Nat)) :
    z ∈ insertDesc x l ↔ z = x ∨ z ∈ l := by
  induction l with
  | nil => simp [insertDesc]
  | cons y ys ih =>
    by_cases h : y.2 ≤ x.2
    · simp [insertDesc, h, or_comm, or_assoc]
    · simp [insertDesc, h, ih]
      tauto

theorem insertDesc_pairwise (x : String × Nat) (l : List (String × Nat))
    (hl : List.Pairwise (fun a b => b.2 ≤ a.2) l) :
    List.Pairwise (fun a b => b.2 ≤ a.2) (insertDesc x l) := by
  induction l with
  | nil => simp [insertDesc]
  | cons y ys ih =>
    rcases List.pairwise_cons.1 hl with ⟨hy, hys⟩
    by_cases h : y.2 ≤ x.2
    · rw [insertDesc, if_pos h]
      refine List.pairwise_cons.2 ⟨?_, hl⟩
      intro z hz
      rcases List.mem_cons.1 hz with rfl | hz'
      · exact h
      · exact le_trans (hy z hz') h
    · rw [insertDesc, if_neg h]
      refine List.pairwise_cons.2 ⟨?_, ih hys⟩
      intro z hz
      rcases (mem_insertDesc x z ys).1 hz with rfl | hz'
      · omega
      · exact hy z hz'

theorem insertDesc_perm (x : String × Nat) (l : List (String × Nat)) :
    List.Perm (insertDesc x l) (x :: l) := by
  induction l with
  | nil => exact List.Perm.refl _
  | cons y ys ih =>
    by_cases h : y.2 ≤ x.2
    · rw [insertDesc, if_pos h]
    · rw [insertDesc, if_neg h]
      exact (ih.cons y).trans (List.Perm.swap x y ys)

theorem sortDesc_pairwise (l : List (String × Nat)) :
    List.Pairwise (fun a b => b.2 ≤ a.2) (sortDesc l) := by
  induction l with
  | nil => simp [sortDesc]
  | cons x xs ih => exact insertDesc_pairwise x (sortDesc xs) ih

theorem sortDesc_perm (l : List (String × Nat)) :
    List.Perm (sortDesc l) l := by
  induction l with
  | nil => exact List.Perm.refl _
  | cons x xs ih => exact (insertDesc_perm x (sortDesc xs)).trans (ih.cons x)

theorem insertDesc_filter (c : Nat) (x : String × Nat) (l : List (String × Nat)) :
    (insertDesc x l).filter (fun p => p.2 == c) =
      if x.2 = c then x :: l.filter (fun p => p.2 == c)
      else l.filter (fun p => p.2 == c) := by
  induction l with
  | nil => by_cases h : x.2 = c <;> simp [insertDesc, h]
  | cons y ys ih =>
    by_cases hyx : y.2 ≤ x.2
    · rw [insertDesc, if_pos hyx]
      by_cases h : x.2 = c <;> simp [List.filter_cons, h]
    · rw [insertDesc, if_neg hyx]
      by_cases h : x.2 = c
      · have hyc : ¬ (y.2 = c) := by omega
        simp [List.filter_cons, h, hyc, ih]
      · simp [List.filter_cons, h, ih]

theorem sortDesc_filter (c : Nat) (l : List (String × Nat)) :
    (sortDesc l).filter (fun p => p.2 == c) = l.filter (fun p => p.2 == c) := by
  induction l with
  | nil => rfl
  | cons x xs ih =>
    show (insertDesc x (sortDesc xs)).filter _ = _
    rw [insertDesc_filter]
    by_cases h : x.2 = c <;> simp [List.filter_cons, h, ih]

theorem alookup_bump (j k : String) (l : List (String × Nat)) :
    alookup j (bump k l) =
      if j = k then some ((alookup k l).getD 0 + 1) else alookup j l := by
  induction l with
  | nil =>
    by_cases h : j = k
    · simp [bump, alookup, h]
    · have h' : ¬ (k = j) := fun e => h e.symm
      simp [bump, alookup, h, h']
  | cons p rest ih =>
    rcases p with ⟨k', n⟩
    by_cases hk : k' = k <;> by_cases hj : j = k
    · simp [bump, alookup, hk, hj]
    · have hj' : ¬ (k = j) := fun e => hj e.symm
      simp [bump, alookup, hk, hj, hj']
    · rw [hj] at ih ⊢
      simp [bump, alookup, hk, ih]
    · simp [bump, alookup, hk, hj, ih]

theorem alookup_appendVid (j k t : String) (l : List (String × List String)) :
    alookup j (appendVid k t l) =
      if j = k then some ((alookup k l).getD [] ++ [t]) else alookup j l := by
  induction l with
  | nil =>
    by_cases h : j = k
    · simp [appendVid, alookup, h]
    · have h' : ¬ (k = j) := fun e => h e.symm
      simp [appendVid, alookup, h, h']
  | cons p rest ih =>
    rcases p with ⟨k', vs⟩
    by_cases hk : k' = k <;> by_cases hj : j = k
    · simp [appendVid, alookup, hk, hj]
    · have hj' : ¬ (k = j) := fun e => hj e.symm
      simp [appendVid, alookup, hk, hj, hj']
    · rw [hj] at ih ⊢
      simp [appendVid, alookup, hk, ih]
    · simp [appendVid, alookup, hk, hj, ih]

theorem keys_bump (k : String) (l : List (String × Nat)) :
    (bump k l).map Prod.fst =
      if k ∈ l.map Prod.fst then l.map Prod.fst else l.map Prod.fst ++ [k] := by
  induction l with
  | nil => simp [bump]
  | cons p rest ih =>
    rcases p with ⟨k', n⟩
    by_cases h : k' = k
    · simp [bump, h]
    · have h' : ¬ (k = k') := fun e => h e.symm
      simp only [bump, if_neg h, List.map_cons, ih, List.mem_cons, h',
        false_or]
      by_cases hm : k ∈ rest.map Prod.fst <;> simp [hm]

theorem keysNodup_bump (k : String) (l : List (String × Nat))
    (h : KeysNodup l) : KeysNodup (bump k l) := by
  unfold KeysNodup at *
  rw [keys_bump]
  split
  · exact h
  · next hm =>
    rw [List.nodup_append]
    exact ⟨h, List.nodup_singleton k, by simpa [List.disjoint_singleton] using hm⟩

theorem alookup_of_mem {α : Type} (p : String × α) :
    ∀ l : List (String × α), KeysNodup l → p ∈ l → alookup p.1 l = some p.2 := by
  intro l
  induction l with
  | nil => intro _ hp; cases hp
  | cons q rest ih =>
    intro hnd hp
    rcases List.mem_cons.1 hp with rfl | hp'
    · simp [alookup]
    · have hq : q.1 ≠ p.1 := by
        intro e
        have hmem : p.1 ∈ rest.map Prod.fst := List.mem_map_of_mem Prod.fst hp'
        unfold KeysNodup at hnd
        rw [List.map_cons] at hnd
        exact (List.nodup_cons.1 hnd).1 (e ▸ hmem)
      rw [alookup, if_neg hq]
      refine ih ?_ hp'
      unfold KeysNodup at hnd ⊢
      rw [List.map_cons] at hnd
      exact (List.nodup_cons.1 hnd).2

theorem aggStep_inv (acc : List (String × Nat) × List (String × List String))
    (it : Snippet) (h : AggInv acc.1 acc.2) :
    AggInv (aggStep acc it).1 (aggStep acc it).2 := by
  unfold aggStep
  by_cases hv : (truthy it.categoryId && truthy it.title) = true
  · rw [if_pos hv]
    rcases h with ⟨hnd, hrel⟩
    refine ⟨keysNodup_bump _ _ hnd, fun cid => ?_⟩
    rw [alookup_bump, alookup_appendVid]
    by_cases hc : cid = it.categoryId.getD ""
    · rw [if_pos hc, if_pos hc]
      have hr := hrel (it.categoryId.getD "")
      cases hl : alookup (it.categoryId.getD "") acc.2 with
      | none => rw [hl] at hr; simp at hr; simp [← hr]
      | some ts => rw [hl] at hr; simp at hr; simp [← hr]
    · rw [if_neg hc, if_neg hc]; exact hrel cid
  · rw [if_neg hv]; exact h

theorem foldl_aggStep_inv (l : List Snippet) :
    ∀ acc, AggInv acc.1 acc.2 →
      AggInv (l.foldl aggStep acc).1 (l.foldl aggStep acc).2 := by
  induction l with
  | nil => intro acc h; exact h
  | cons it rest ih => intro acc h; exact ih _ (aggStep_inv acc it h)

theorem aggregate_inv (l : List Snippet) :
    AggInv (aggregate l).1 (aggregate l).2 :=
  foldl_aggStep_inv l ([], []) ⟨by simp [KeysNodup], fun cid => rfl⟩

/-! ### Claim theorems -/

/-- C1: the recency filter returns an order-preserving subsequence of its
input containing exactly those records whose publish timestamp parses under
one of the two accepted formats to a time at or after the cutoff; records
with missing or unparseable timestamps are dropped without aborting, and no
record with a valid timestamp at or after the cutoff is dropped. -/
theorem c1_recency_filter (threshold : PyDateTime) (items : List Snippet) :
    List.Sublist (filterRecent threshold items) items ∧
    ∀ it, it ∈ items →
      (it ∈ filterRecent threshold items ↔
        ∃ s d, it.publishedAt = some s ∧ parse_iso_date s = some d ∧
          dtLe threshold d = true) := by
  refine ⟨List.filter_sublist items, fun it hmem => ?_⟩
  simp [filterRecent, List.mem_filter, hmem, keepItem_iff]

/-- Witness for C1: record "A" is kept at the concrete 7-day cutoff. -/
theorem c1_recency_filter_witness :
    itA ∈ filterRecent thr0 [itA, itC] ↔
      ∃ s d, itA.publishedAt = some s ∧ parse_iso_date s = some d ∧
        dtLe thr0 d = true :=
  (c1_recency_filter thr0 [itA, itC]).2 itA (by decide)

/-- C4: the resolved cutoff string is the ISO rendering of the current time
minus 7, 30, or 180 days for the three recognized spans, and any other span
value falls back to the 7-day mapping; the resolution is a total function of
the current time and the selection. -/
theorem c4_time_window_mapping (now : PyDateTime) (ts : String) :
    (ts = "1 Week" →
      get_published_after now ts = String.mk (isoformatZ (dtSubDays now 7))) ∧
    (ts = "1 Month" →
      get_published_after now ts = String.mk (isoformatZ (dtSubDays now 30))) ∧
    (ts = "6 Months" →
      get_published_after now ts = String.mk (isoformatZ (dtSubDays now 180))) ∧
    (ts ≠ "1 Week" → ts ≠ "1 Month" → ts ≠ "6 Months" →
      get_published_after now ts = String.mk (isoformatZ (dtSubDays now 7))) := by
  refine ⟨fun h => ?_, fun h => ?_, fun h => ?_, fun h1 h2 h3 => ?_⟩
  · subst h; rfl
  · subst h; rfl
  · subst h; rfl
  · simp [get_published_after, spanDelta, h1, h2, h3]

/-- Witness for C4 at a concrete time and an unrecognized span string. -/
theorem c4_time_window_mapping_witness :
    get_published_after now0 "2 Weeks" = String.mk (isoformatZ (dtSubDays now0 7)) :=
  (c4_time_window_mapping now0 "2 Weeks").2.2.2 (by decide) (by decide) (by decide)

/-- C2: the selected top-categories list has length at most 10, its counts
are non-increasing, and among entries of any fixed count the selection is a
prefix of the counter's first-insertion (first-encounter) ordering. -/
theorem c2_top10_order (l : List Snippet) :
    (mostCommon10 (aggregate l).1).length ≤ 10 ∧
    List.Pairwise (fun a b => b.2 ≤ a.2) (mostCommon10 (aggregate l).1) ∧
    ∀ c : Nat,
      ((mostCommon10 (aggregate l).1).filter (fun p => p.2 == c)) <+:
        (((aggregate l).1).filter (fun p => p.2 == c)) := by
  refine ⟨?_, ?_, ?_⟩
  · simp [mostCommon10, List.length_take_le]
  · exact List.Pairwise.sublist (List.take_sublist 10 _) (sortDesc_pairwise _)
  · intro c
    refine ⟨((sortDesc (aggregate l).1).drop 10).filter (fun p => p.2 == c), ?_⟩
    show ((sortDesc (aggregate l).1).take 10).filter _ ++ _ = _
    rw [← List.filter_append, List.take_append_drop, sortDesc_filter]

/-- C9: in every assembled topic, the count written into the comment equals
the length of the topic's title list, because the aggregation loop
increments a category's count exactly when it appends a title for it. -/
theorem c9_comment_count_eq_titles (l : List Snippet)
    (m : List (String × String)) (t : Topic)
    (ht : t ∈ build_topics (mostCommon10 (aggregate l).1) m (aggregate l).2) :
    t.comment = mkComment t.videos.length t.topic := by
  unfold build_topics at ht
  rcases List.mem_map.1 ht with ⟨p, hp, rfl⟩
  simp only [mostCommon10] at hp
  have hp2 : p ∈ (aggregate l).1 :=
    (sortDesc_perm _).subset (List.take_subset 10 _ hp)
  obtain ⟨hnd, hrel⟩ := aggregate_inv l
  have hcnt : alookup p.1 (aggregate l).1 = some p.2 :=
    alookup_of_mem p _ hnd hp2
  have hr := hrel p.1
  rw [hcnt] at hr
  cases hv : alookup p.1 (aggregate l).2 with
  | none => rw [hv] at hr; simp at hr
  | some ts =>
    rw [hv] at hr
    simp at hr
    simp [hv, hr]

/-- Witness for C9 on the two-record aggregation. -/
theorem c9_comment_count_eq_titles_witness :
    (⟨"Music", mkComment 2 "Music", ["A", "B"]⟩ : Topic).comment =
      mkComment (⟨"Music", mkComment 2 "Music", ["A", "B"]⟩ : Topic).videos.length
        (⟨"Music", mkComment 2 "Music", ["A", "B"]⟩ : Topic).topic :=
  c9_comment_count_eq_titles [itA, itB] [("10", "Music")]
    ⟨"Music", mkComment 2 "Music", ["A", "B"]⟩ (by decide)

/-- C3 as stated is false on the code: a record that survives the recency
filter but has no `categoryId` is skipped by the aggregation loop, so the
counter total (0) differs from the surviving-record count (1). -/
theorem c3_count_sum_counterexample :
    ¬ (sumCounts (aggregate (filterRecent thr0 [itBad])).1 =
        (filterRecent thr0 [itBad]).length) := by decide

/-- C3 amended: for every cutoff and every input batch, the counter total
equals the number of records surviving the recency filter that carry a
non-empty category id and a non-empty title; surviving records missing
either are skipped by the aggregation loop. -/
theorem c3_count_sum_amended (threshold : PyDateTime) (l : List Snippet) :
    sumCounts (aggregate (filterRecent threshold l)).1 =
      ((filterRecent threshold l).filter
        (fun it => truthy it.categoryId && truthy it.title)).length := by
  have h := foldl_aggStep_sum (filterRecent threshold l) ([], [])
  simpa [aggregate, sumCounts] using h

/-- C5: if the trending call errors, the invocation returns no topics and
surfaces exactly the fetch error; if the pipeline reaches the category call
and that call errors, the invocation returns no topics and surfaces exactly
the category-details error.  Both cases are ordinary return values: no
exception escapes. -/
theorem c5_remote_errors (ts region : String) (now : PyDateTime)
    (catsResp : Except String (List CategoryItem)) (items : List Snippet)
    (threshold : PyDateTime) (e : String) :
    (get_trending_topics ts region now (.error e) catsResp =
      ⟨[], [.error ("Error fetching trending videos: " ++ e)]⟩) ∧
    (items ≠ [] →
      parse_iso_date (get_published_after now ts) = some threshold →
      filterRecent threshold items ≠ [] →
      (aggregate (filterRecent threshold items)).1 ≠ [] →
      get_trending_topics ts region now (.ok items) (.error e) =
        ⟨[], [.error ("Error fetching category details: " ++ e)]⟩) := by
  constructor
  · rfl
  · intro h1 h2 h3 h4
    simp [get_trending_topics, h1, h2, h3, h4]

/-- Witness for C5: a nonempty batch that reaches the failing category
call. -/
theorem c5_remote_errors_witness :
    get_trending_topics "1 Week" "Brazil" now0 (.ok [itA]) (.error "boom") =
      ⟨[], [.error ("Error fetching category details: " ++ "boom")]⟩ :=
  (c5_remote_errors "1 Week" "Brazil" now0 (.error "boom") [itA] thr0 "boom").2
    (by decide) (by decide) (by decide) (by decide)

/-- C6: a selected category id that the lookup response does not contain is
reported under the name "Unknown", and its topic still appears with its
count and title list. -/
theorem c6_unknown_category (tc : List (String × Nat))
    (m : List (String × String)) (v : List (String × List String))
    (p : String × Nat) (hp : p ∈ tc) (hm : alookup p.1 m = none) :
    (⟨"Unknown", mkComment p.2 "Unknown", (alookup p.1 v).getD []⟩ : Topic) ∈
      build_topics tc m v := by
  unfold build_topics
  refine List.mem_map.2 ⟨p, hp, ?_⟩
  simp [hm]

/-- Witness for C6 with an empty category mapping. -/
theorem c6_unknown_category_witness :
    (⟨"Unknown", mkComment 2 "Unknown",
        (alookup "10" [("10", ["A", "B"])]).getD []⟩ : Topic) ∈
      build_topics [("10", 2)] [] [("10", ["A", "B"])] :=
  c6_unknown_category [("10", 2)] [] [("10", ["A", "B"])] ("10", 2)
    (by decide) (by decide)

/-- C7: every assembled topic's comment is exactly the fixed template with
the topic's count and resolved name substituted. -/
theorem c7_comment_format (tc : List (String × Nat))
    (m : List (String × String)) (v : List (String × List String))
    (t : Topic) (ht : t ∈ build_topics tc m v) :
    ∃ cid count, (cid, count) ∈ tc ∧
      t.comment = "There are " ++ Nat.repr count ++
        " popular videos trending in the '" ++ t.topic ++
        "' category during this period." := by
  unfold build_topics at ht
  rcases List.mem_map.1 ht with ⟨p, hp, rfl⟩
  exact ⟨p.1, p.2, by simpa using hp, rfl⟩

/-- Witness for C7 on a concrete assembled report. -/
theorem c7_comment_format_witness :
    ∃ cid count, (cid, count) ∈ [("10", 2)] ∧
      (⟨"Music", mkComment 2 "Music", ["A", "B"]⟩ : Topic).comment =
        "There are " ++ Nat.repr count ++
          " popular videos trending in the '" ++
          (⟨"Music", mkComment 2 "Music", ["A", "B"]⟩ : Topic).topic ++
          "' category during this period." :=
  c7_comment_format [("10", 2)] [("10", "Music")] [("10", ["A", "B"])]
    ⟨"Music", mkComment 2 "Music", ["A", "B"]⟩ (by decide)

/-- C8: on the three-record scenario (two category-"10" records "A", "B"
published at the current time, one category-"20" record "C" published 40
days earlier) with the 7-day window, the filter drops exactly "C" and the
aggregator produces the single entry ("10", count 2, titles ["A", "B"]). -/
theorem c8_scenario :
    parse_iso_date (get_published_after now0 "1 Week") = some thr0 ∧
    filterRecent thr0 [itA, itB, itC] = [itA, itB] ∧
    aggregate (filterRecent thr0 [itA, itB, itC]) =
      ([("10", 2)], [("10", ["A", "B"])]) := by decide

/-- C10: for every time-span string and every current time in the range
`utcnow` can produce (a valid datetime of year 2 through 9999), the cutoff
string built by `get_published_after` parses back under the accepted formats
to exactly the shifted datetime — so `parse_iso_date` never raises on it and
the threshold-parse error branch of `get_trending_topics` is unreachable. -/
theorem c10_cutoff_always_parses (now : PyDateTime) (ts : String)
    (hv : DTValid now) (hy2 : 2 ≤ now.year) (hy9 : now.year ≤ 9999) :
    parse_iso_date (get_published_after now ts) =
      some (dtSubDays now (spanDelta ts)) := by
  have hd := spanDelta_le ts
  have hmb : 2 * spanDelta ts ≤ dateMeasure now := by
    have hb1 : 1 ≤ now.day := hv.2.2.2.1
    have h366 : 366 ≤ (now.year - 1) * 366 :=
      le_mul_of_one_le_left (by norm_num) (by omega)
    rw [show dateMeasure now =
      (now.year - 1) * 366 + daysBeforeMonth now.year now.month + now.day from rfl]
    omega
  obtain ⟨hv', hy', -, -, -, -, -⟩ := dtSubDays_valid (spanDelta ts) now hv hmb
  exact parse_isoformatZ _ hv' (le_trans hy' hy9)

/-- Witness for C10 at the concrete time `now0` and the 7-day span. -/
theorem c10_cutoff_always_parses_witness :
    parse_iso_date (get_published_after now0 "1 Week") =
      some (dtSubDays now0 (spanDelta "1 Week")) :=
  c10_cutoff_always_parses now0 "1 Week" (by decide) (by decide) (by decide)

end ThemeTracker
